import Mathlib

/-!
Verification of the NBA fantasy roster optimizer (`nba_fantasy_optimizer.py`).

The program builds a 0/1 linear program with PuLP: decision variables for
initial-squad membership, per-day squad membership, per-day lineup membership,
per-day captaincy and per-day transfers; linear constraints encoding squad
size, budget, transfer bookkeeping, daily quotas and team caps; and an
objective summing per-player per-day projected points over lineup and captain
indicators.  We embed the model construction as the computation of an explicit
list of linear constraints over an inductive variable type, and the solve /
reporting pipeline as pure functions of a supplied solver outcome.
-/

namespace NBAFantasy

/-- A row of `players_df`: name, now_cost, element_type, team, points_per_game. -/
structure Player where
  name : String
  now_cost : Int
  element_type : Nat
  team : String
  points_per_game : Rat
deriving DecidableEq, Repr

/-- A row of `games_df`: event (day), home team, away team. -/
structure Game where
  event : Nat
  team_h : String
  team_a : String
deriving DecidableEq, Repr

/-- The run configuration (config.json fields used by the optimizer). -/
structure Config where
  budget : Int
  start_gameday : Nat
  end_gameday : Nat
  transfers : Int
  initial_squad : List String
  player_points_adjustments : Option (List (String × Rat))
deriving DecidableEq, Repr

/-- The decision variables declared by `initialize_variables`, one per index
combination. -/
inductive Var where
  | initialSquad (i : Nat)
  | squadDay (i d : Nat)
  | chosenDay (i d : Nat)
  | tIn (i d : Nat)
  | tOut (i d : Nat)
  | doubledScore (i d : Nat)
deriving DecidableEq, Repr

/-- Comparison sense of a PuLP constraint. -/
inductive Rel where
  | le
  | ge
  | eq
deriving DecidableEq, Repr

/-- A linear constraint `sum of coeff * var REL rhs` as accumulated into
`self.prob`.  All constraint coefficients in the program are integers. -/
structure Constr where
  terms : List (Int × Var)
  rel : Rel
  rhs : Int
deriving DecidableEq, Repr

/-- Value of a 0/1 variable under an assignment, as an integer. -/
def bval (A : Var → Bool) (v : Var) : Int :=
  if A v then 1 else 0

/-- Evaluate the linear form of a constraint under a 0/1 assignment. -/
def evalTerms (A : Var → Bool) : List (Int × Var) → Int
  | [] => 0
  | (c, v) :: ts => c * bval A v + evalTerms A ts

/-- A constraint holds under an assignment. -/
def Constr.sat (A : Var → Bool) : Constr → Prop
  | ⟨ts, Rel.le, r⟩ => evalTerms A ts ≤ r
  | ⟨ts, Rel.ge, r⟩ => r ≤ evalTerms A ts
  | ⟨ts, Rel.eq, r⟩ => evalTerms A ts = r

instance (A : Var → Bool) (c : Constr) : Decidable (c.sat A) :=
  match c with
  | ⟨ts, Rel.le, r⟩ => inferInstanceAs (Decidable (evalTerms A ts ≤ r))
  | ⟨ts, Rel.ge, r⟩ => inferInstanceAs (Decidable (r ≤ evalTerms A ts))
  | ⟨ts, Rel.eq, r⟩ => inferInstanceAs (Decidable (evalTerms A ts = r))

/-! Class constants of `NBAFantasyOptimizer`. -/

def INITIAL_PLAYERS_COUNT : Int := 10
def MIN_PLAYER_TYPE_COUNT : Int := 2
def PLAYER_TYPE_COUNT : Int := 5
def TOTAL_PLAYERS_PER_DAY : Int := 5
def MAX_PLAYERS_FROM_SAME_TEAM : Int := 2

/-! Dataframe access helpers.  `players_df.index` is the default RangeIndex
`0, 1, ..., len-1`; column access at index `i` is `l[i]?` with a default that
is never reached for in-range indices. -/

/-- `self.days = range(start_gameday, end_gameday + 1)`. -/
def daysList (s e : Nat) : List Nat := List.range' s (e + 1 - s)

/-- `players_df.index` as a list. -/
def idx (players : List Player) : List Nat := List.range players.length

def nameAt (players : List Player) (i : Nat) : String :=
  ((players[i]?).map Player.name).getD ""

def costAt (players : List Player) (i : Nat) : Int :=
  ((players[i]?).map Player.now_cost).getD 0

def typeAt (players : List Player) (i : Nat) : Nat :=
  ((players[i]?).map Player.element_type).getD 0

def teamAt (players : List Player) (i : Nat) : String :=
  ((players[i]?).map Player.team).getD ""

def ppgAt (players : List Player) (i : Nat) : Rat :=
  ((players[i]?).map Player.points_per_game).getD 0

/-- `players_df[players_df["element_type"] == t].index`: the indices whose
element_type equals `t`. -/
def typeIdx (players : List Player) (t : Nat) : List Nat :=
  (idx players).filter (fun i => typeAt players i = t)

/-- `players_df[players_df["team"] == t].index`: the indices whose team
equals `t`. -/
def teamIdx (players : List Player) (t : String) : List Nat :=
  (idx players).filter (fun i => teamAt players i = t)

/-- `players_df["team"].unique()`: distinct teams in first-occurrence order. -/
def uniqueTeams (players : List Player) : List String :=
  players.foldl (fun acc p => if p.team ∈ acc then acc else acc ++ [p.team]) []

/-- All (player index, day) pairs in variable-declaration order. -/
def allPD (players : List Player) (days : List Nat) : List (Nat × Nat) :=
  (idx players).flatMap (fun i => days.map (fun d => (i, d)))

/-! ### Constraint generation (`add_constraints` and the functions it calls)

Each `add_*` method appends constraints to `self.prob`; we compute the same
constraints as explicit lists, in the order the program emits them. -/

/-- `add_initial_player_constraints`, first part: exactly 10 initial players. -/
def initialCountConstr (players : List Player) : Constr :=
  ⟨(idx players).map (fun i => (1, Var.initialSquad i)), Rel.eq, INITIAL_PLAYERS_COUNT⟩

/-- `add_initial_player_constraints`, second part: for each configured
must-include name, look up `players_df[players_df["name"] == name].index[0]`
and pin that variable's bounds to 1.  An absent name makes the `[0]` access
raise `IndexError` — modelled as the error case. -/
def indexErrMsg : String := "IndexError: index 0 is out of bounds for axis 0 with size 0"

def mustIncludeIndices (players : List Player) : List String → Except String (List Nat)
  | [] => Except.ok []
  | n :: rest =>
    match players.findIdx? (fun p => p.name = n) with
    | some i => (mustIncludeIndices players rest).map (fun l => i :: l)
    | none => Except.error indexErrMsg

/-- `add_budget_constraints`: initial-squad cost and each day's squad cost
are bounded by the budget. -/
def budgetConstraints (players : List Player) (budget : Int) (days : List Nat) :
    List Constr :=
  ⟨(idx players).map (fun i => (costAt players i, Var.initialSquad i)), Rel.le, budget⟩
  :: days.map (fun d =>
      ⟨(idx players).map (fun i => (costAt players i, Var.squadDay i d)), Rel.le, budget⟩)

/-- `add_transfer_constraints`: the two window-wide transfer-count bounds,
then per player and day the transfer-consistency inequalities (first day
against the initial squad, later days against the previous day). -/
def transferConstraints (players : List Player) (transfers : Int) (s : Nat)
    (days : List Nat) : List Constr :=
  ⟨(allPD players days).map (fun pd => (1, Var.tIn pd.1 pd.2)), Rel.le, transfers⟩ ::
  ⟨(allPD players days).map (fun pd => (1, Var.tOut pd.1 pd.2)), Rel.le, transfers⟩ ::
  (idx players).flatMap (fun i =>
    days.flatMap (fun d =>
      if d = s then
        [⟨[(1, Var.tIn i d), (-1, Var.squadDay i d), (1, Var.initialSquad i)], Rel.ge, 0⟩,
         ⟨[(1, Var.tOut i d), (-1, Var.initialSquad i), (1, Var.squadDay i d)], Rel.ge, 0⟩]
      else
        [⟨[(1, Var.tIn i d), (-1, Var.squadDay i d), (1, Var.squadDay i (d - 1))], Rel.ge, 0⟩,
         ⟨[(1, Var.tOut i d), (-1, Var.squadDay i (d - 1)), (1, Var.squadDay i d)], Rel.ge, 0⟩]))

/-- The constraints `add_daily_constraints` emits for one day `d`: lineup
type minima, lineup size, captain count, squad type quotas, then per player
the lineup ⊆ squad and captain ⊆ lineup inequalities. -/
def dailyBlock (players : List Player) (d : Nat) : List Constr :=
  [⟨(typeIdx players 1).map (fun i => (1, Var.chosenDay i d)), Rel.ge, MIN_PLAYER_TYPE_COUNT⟩,
   ⟨(typeIdx players 2).map (fun i => (1, Var.chosenDay i d)), Rel.ge, MIN_PLAYER_TYPE_COUNT⟩,
   ⟨(idx players).map (fun i => (1, Var.chosenDay i d)), Rel.eq, TOTAL_PLAYERS_PER_DAY⟩,
   ⟨(idx players).map (fun i => (1, Var.doubledScore i d)), Rel.eq, 1⟩,
   ⟨(typeIdx players 1).map (fun i => (1, Var.squadDay i d)), Rel.eq, PLAYER_TYPE_COUNT⟩,
   ⟨(typeIdx players 2).map (fun i => (1, Var.squadDay i d)), Rel.eq, PLAYER_TYPE_COUNT⟩]
  ++ (idx players).flatMap (fun i =>
      [⟨[(1, Var.chosenDay i d), (-1, Var.squadDay i d)], Rel.le, 0⟩,
       ⟨[(1, Var.doubledScore i d), (-1, Var.chosenDay i d)], Rel.le, 0⟩])

/-- `add_daily_constraints`: the per-day blocks over the whole window. -/
def dailyConstraints (players : List Player) (days : List Nat) : List Constr :=
  days.flatMap (dailyBlock players)

/-- `add_team_constraints`: at most 2 squad members from any one team, per
team and day. -/
def teamConstraints (players : List Player) (days : List Nat) : List Constr :=
  (uniqueTeams players).flatMap (fun t =>
    days.map (fun d =>
      ⟨(teamIdx players t).map (fun i => (1, Var.squadDay i d)), Rel.le,
       MAX_PLAYERS_FROM_SAME_TEAM⟩))

/-- `add_constraints`: all generated constraints in emission order, together
with the list of must-include player indices whose `initial_squad` variable
is pinned to 1; fails like the program does when a must-include name is
absent from the dataset. -/
def addConstraints (players : List Player) (cfg : Config) :
    Except String (List Constr × List Nat) :=
  (mustIncludeIndices players cfg.initial_squad).map (fun forced =>
    (initialCountConstr players
      :: (budgetConstraints players cfg.budget (daysList cfg.start_gameday cfg.end_gameday)
          ++ transferConstraints players cfg.transfers cfg.start_gameday
              (daysList cfg.start_gameday cfg.end_gameday)
          ++ dailyConstraints players (daysList cfg.start_gameday cfg.end_gameday)
          ++ teamConstraints players (daysList cfg.start_gameday cfg.end_gameday)),
     forced))

/-- An assignment satisfies the generated model: every emitted constraint
holds, and every pinned must-include variable is 1. -/
def Satisfies (A : Var → Bool) (cs : List Constr) (forced : List Nat) : Prop :=
  (∀ c ∈ cs, c.sat A) ∧ ∀ i ∈ forced, A (Var.initialSquad i) = true

instance (A : Var → Bool) (cs : List Constr) (forced : List Nat) :
    Decidable (Satisfies A cs forced) :=
  inferInstanceAs (Decidable (_ ∧ _))

/-! ### Objective builder (`set_objective_function`) -/

/-- `player_points_for_day`: the player's points_per_game if the games of
that day list the player's team as home or away, else 0. -/
def player_points_for_day (players : List Player) (games : List Game)
    (i d : Nat) : Rat :=
  match players[i]? with
  | none => 0
  | some p =>
    let games_on_day := games.filter (fun g => g.event == d)
    if games_on_day.any (fun g => g.team_h == p.team)
        || games_on_day.any (fun g => g.team_a == p.team) then
      p.points_per_game
    else 0

/-- The objective as the list of (coefficient, variable) terms produced by
`lpSum(points(i, d) * (chosen_day[i, d] + doubled_score[i, d]) for i ... for d ...)`. -/
def objectiveTerms (players : List Player) (games : List Game)
    (days : List Nat) : List (Rat × Var) :=
  (idx players).flatMap (fun i =>
    days.flatMap (fun d =>
      [(player_points_for_day players games i d, Var.chosenDay i d),
       (player_points_for_day players games i d, Var.doubledScore i d)]))

/-- Value of a 0/1 variable under an assignment, as a rational. -/
def bvalQ (A : Var → Bool) (v : Var) : Rat :=
  if A v then 1 else 0

/-- Evaluate a list of rational-coefficient terms under a 0/1 assignment. -/
def evalObj (A : Var → Bool) : List (Rat × Var) → Rat
  | [] => 0
  | (c, v) :: ts => c * bvalQ A v + evalObj A ts

/-! ### Points adjustment (`adjust_player_points`) -/

/-- `df.loc[df["name"] == name, "points_per_game"] = pts`: set the points of
every row whose name matches. -/
def setPoints (df : List Player) (name : String) (pts : Rat) : List Player :=
  df.map (fun p => if p.name = name then { p with points_per_game := pts } else p)

/-- The warning printed for an override name absent from the dataframe. -/
def warnMsg (n : String) : String :=
  "Warning: Player " ++ n ++ " not found in DataFrame."

/-- `adjust_player_points`: apply each configured override in order when the
name occurs in the dataframe, else emit a warning line; returns the updated
dataframe and the warnings printed. -/
def adjustPlayerPoints : List Player → List (String × Rat) → List Player × List String
  | df, [] => (df, [])
  | df, (name, pts) :: rest =>
    if (df.map Player.name).contains name then
      adjustPlayerPoints (setPoints df name pts) rest
    else
      let r := adjustPlayerPoints df rest
      (r.1, warnMsg name :: r.2)

/-! ### Solve and reporting pipeline (`setup_problem`, `print_solution`,
`print_initial_squad`, `main`) -/

/-- Solver status as read back from PuLP. -/
inductive Status where
  | optimal
  | infeasible
  | unbounded
  | notSolved
deriving DecidableEq, Repr

/-- The fully built model handed to the solver. -/
structure Problem where
  constraints : List Constr
  forced : List Nat
  objective : List (Rat × Var)

/-- What the external solver leaves behind: a status and per-variable values
(`varValue`, possibly absent). -/
structure SolveResult where
  status : Status
  value : Var → Option Int

/-- `pulp.value(self.prob.objective)` over the solver-left variable values. -/
def objValueOf (r : SolveResult) : List (Rat × Var) → Rat
  | [] => 0
  | (c, v) :: ts => c * (((r.value v).map (fun k => (k : Rat))).getD 0) + objValueOf r ts

/-- `print_solution`: on a non-optimal status only the failure line; on
optimal, the objective value and the per-day transfer lists. -/
def print_solution (players : List Player) (days : List Nat) (r : SolveResult)
    (obj : List (Rat × Var)) : List String :=
  if r.status = Status.optimal then
    ("Total Points: " ++ toString (objValueOf r obj)) ::
    "Transfers to be made:" ::
    days.flatMap (fun d =>
      let tin := (idx players).filter (fun i => r.value (Var.tIn i d) == some 1)
      let tout := (idx players).filter (fun i => r.value (Var.tOut i d) == some 1)
      if tin.isEmpty && tout.isEmpty then []
      else
        ("Day " ++ toString d ++ ":") ::
        ((if tin.isEmpty then [] else
            "  Transfers In:" :: tin.map (fun i => "    - " ++ nameAt players i))
         ++ (if tout.isEmpty then [] else
            "  Transfers Out:" :: tout.map (fun i => "    - " ++ nameAt players i))))
  else
    ["No optimal solution found."]

/-- `print_initial_squad`: unconditionally prints the header and the name of
every player whose `initial_squad` variable solved to 1. -/
def print_initial_squad (players : List Player) (r : SolveResult) : List String :=
  "Initial Squad:" ::
  ((idx players).filter (fun i => r.value (Var.initialSquad i) == some 1)).map
    (fun i => "  - " ++ nameAt players i)

/-- The model built by `setup_problem` after the points adjustment. -/
def mkProblem (df : List Player) (games : List Game) (cfg : Config)
    (pr : List Constr × List Nat) : Problem :=
  ⟨pr.1, pr.2, objectiveTerms df games (daysList cfg.start_gameday cfg.end_gameday)⟩

/-- `main` followed by `setup_problem`: adjust points, build the model, hand
it to the solver, and collect everything printed (adjustment warnings, then
`print_solution`, then `print_initial_squad`).  A must-include lookup failure
aborts the run with the uncaught error before the solver is ever consulted. -/
def mainRun (players : List Player) (games : List Game) (cfg : Config)
    (solver : Problem → SolveResult) : Except String (List String) :=
  let adj := match cfg.player_points_adjustments with
    | some a => adjustPlayerPoints players a
    | none => (players, [])
  match addConstraints adj.1 cfg with
  | Except.error e => Except.error e
  | Except.ok pr =>
    let prob := mkProblem adj.1 games cfg pr
    let r := solver prob
    Except.ok (adj.2
      ++ print_solution adj.1 (daysList cfg.start_gameday cfg.end_gameday) r prob.objective
      ++ print_initial_squad adj.1 r)

/-! ### Solution-shape helpers used to state the invariants -/

/-- Number of players in the initial squad under an assignment. -/
def initialSquadSize (players : List Player) (A : Var → Bool) : Nat :=
  ((idx players).filter (fun i => A (Var.initialSquad i))).length

/-- Number of players in the day-`d` squad under an assignment. -/
def squadSize (players : List Player) (A : Var → Bool) (d : Nat) : Nat :=
  ((idx players).filter (fun i => A (Var.squadDay i d))).length

/-- Number of players of element type `t` in the day-`d` squad. -/
def squadTypeSize (players : List Player) (A : Var → Bool) (t d : Nat) : Nat :=
  ((typeIdx players t).filter (fun i => A (Var.squadDay i d))).length

/-- Number of players in the day-`d` lineup. -/
def lineupSize (players : List Player) (A : Var → Bool) (d : Nat) : Nat :=
  ((idx players).filter (fun i => A (Var.chosenDay i d))).length

/-- Number of captains on day `d`. -/
def captainCount (players : List Player) (A : Var → Bool) (d : Nat) : Nat :=
  ((idx players).filter (fun i => A (Var.doubledScore i d))).length

/-- Total transfers-in over the whole window. -/
def tInTotal (players : List Player) (days : List Nat) (A : Var → Bool) : Nat :=
  ((allPD players days).filter (fun pd => A (Var.tIn pd.1 pd.2))).length

/-- Total transfers-out over the whole window. -/
def tOutTotal (players : List Player) (days : List Nat) (A : Var → Bool) : Nat :=
  ((allPD players days).filter (fun pd => A (Var.tOut pd.1 pd.2))).length

/-! ### Generic evaluation lemmas -/

theorem evalTerms_append (A : Var → Bool) (l1 l2 : List (Int × Var)) :
    evalTerms A (l1 ++ l2) = evalTerms A l1 + evalTerms A l2 := by
  induction l1 with
  | nil => simp [evalTerms]
  | cons t ts ih => cases t; simp [evalTerms, ih]; ring

/-- A sum of coefficient-1 indicator terms counts the variables set to 1. -/
theorem evalTerms_map_one (A : Var → Bool) {α : Type} (l : List α) (f : α → Var) :
    evalTerms A (l.map (fun a => (1, f a))) =
      ((l.filter (fun a => A (f a))).length : Int) := by
  induction l with
  | nil => simp [evalTerms]
  | cons a l ih =>
    by_cases h : A (f a) <;>
      simp [evalTerms, bval, h, ih, List.filter_cons] <;> ring

theorem bval_eq_iff (A : Var → Bool) (v w : Var) :
    bval A v = bval A w ↔ A v = A w := by
  unfold bval
  cases hv : A v <;> cases hw : A w <;> simp

theorem bval_le_iff (A : Var → Bool) (v w : Var) :
    bval A v ≤ bval A w ↔ (A v = true → A w = true) := by
  unfold bval
  cases hv : A v <;> cases hw : A w <;> simp

theorem mem_allPD (players : List Player) (days : List Nat) (i d : Nat) :
    (i, d) ∈ allPD players days ↔ i < players.length ∧ d ∈ days := by
  simp [allPD, idx, List.mem_flatMap, List.mem_range]

theorem mem_daysList (s e d : Nat) : d ∈ daysList s e ↔ s ≤ d ∧ d ≤ e := by
  unfold daysList
  rw [List.mem_range'_1]
  omega

theorem forall_mem_flatMap {α β : Type} (p : β → Prop) (l : List α) (f : α → List β) :
    (∀ b ∈ l.flatMap f, p b) ↔ ∀ a ∈ l, ∀ b ∈ f a, p b := by
  simp only [List.mem_flatMap]
  constructor
  · intro h a ha b hb; exact h b ⟨a, ha, hb⟩
  · rintro h b ⟨a, ha, hb⟩; exact h a ha b hb

/-! ### The transfer constraint set, read semantically -/

/-- The squad indicator the transfer constraints compare against: on the
first day of the window the initial squad, afterwards the previous day. -/
def prevSquad (A : Var → Bool) (s i d : Nat) : Int :=
  if d = s then bval A (Var.initialSquad i) else bval A (Var.squadDay i (d - 1))

/-- Spec-side reading of the transfer constraints: per player and day the
`transfer_in`/`transfer_out` lower bounds against the previous squad, and
the two window-wide transfer-count bounds. -/
def transferSpec (players : List Player) (transfers : Int) (s : Nat)
    (days : List Nat) (A : Var → Bool) : Prop :=
  (tInTotal players days A : Int) ≤ transfers ∧
  (tOutTotal players days A : Int) ≤ transfers ∧
  ∀ i < players.length, ∀ d ∈ days,
    bval A (Var.squadDay i d) - prevSquad A s i d ≤ bval A (Var.tIn i d) ∧
    prevSquad A s i d - bval A (Var.squadDay i d) ≤ bval A (Var.tOut i d)

theorem transfer_sat_iff (players : List Player) (transfers : Int) (s : Nat)
    (days : List Nat) (A : Var → Bool) :
    (∀ c ∈ transferConstraints players transfers s days, c.sat A) ↔
      transferSpec players transfers s days A := by
  unfold transferConstraints transferSpec
  rw [List.forall_mem_cons, List.forall_mem_cons, forall_mem_flatMap]
  have hin : Constr.sat A
      ⟨(allPD players days).map (fun pd => (1, Var.tIn pd.1 pd.2)), Rel.le, transfers⟩ ↔
      (tInTotal players days A : Int) ≤ transfers := by
    simp only [Constr.sat, tInTotal]
    rw [evalTerms_map_one]
  have hout : Constr.sat A
      ⟨(allPD players days).map (fun pd => (1, Var.tOut pd.1 pd.2)), Rel.le, transfers⟩ ↔
      (tOutTotal players days A : Int) ≤ transfers := by
    simp only [Constr.sat, tOutTotal]
    rw [evalTerms_map_one]
  rw [hin, hout]
  refine Iff.and Iff.rfl (Iff.and Iff.rfl ?_)
  constructor
  · intro h i hi d hd
    have hmem : i ∈ idx players := by simpa [idx, List.mem_range] using hi
    have h2 := h i hmem
    rw [forall_mem_flatMap] at h2
    have h3 := h2 d hd
    by_cases hds : d = s
    · rw [if_pos hds] at h3
      have ha' := h3 ⟨[(1, Var.tIn i d), (-1, Var.squadDay i d), (1, Var.initialSquad i)],
        Rel.ge, 0⟩ (by simp)
      have hb' := h3 ⟨[(1, Var.tOut i d), (-1, Var.initialSquad i), (1, Var.squadDay i d)],
        Rel.ge, 0⟩ (by simp)
      simp only [Constr.sat, evalTerms] at ha' hb'
      unfold prevSquad
      rw [if_pos hds]
      constructor <;> omega
    · rw [if_neg hds] at h3
      have ha' := h3 ⟨[(1, Var.tIn i d), (-1, Var.squadDay i d), (1, Var.squadDay i (d - 1))],
        Rel.ge, 0⟩ (by simp)
      have hb' := h3 ⟨[(1, Var.tOut i d), (-1, Var.squadDay i (d - 1)), (1, Var.squadDay i d)],
        Rel.ge, 0⟩ (by simp)
      simp only [Constr.sat, evalTerms] at ha' hb'
      unfold prevSquad
      rw [if_neg hds]
      constructor <;> omega
  · intro h i hi
    rw [forall_mem_flatMap]
    intro d hd c hc
    have hi' : i < players.length := by simpa [idx, List.mem_range] using hi
    have h2 := h i hi' d hd
    unfold prevSquad at h2
    by_cases hds : d = s
    · rw [if_pos hds] at h2 hc
      simp only [List.mem_cons, List.not_mem_nil, or_false] at hc
      rcases hc with rfl | rfl
      · simp only [Constr.sat, evalTerms]; omega
      · simp only [Constr.sat, evalTerms]; omega
    · rw [if_neg hds] at h2 hc
      simp only [List.mem_cons, List.not_mem_nil, or_false] at hc
      rcases hc with rfl | rfl
      · simp only [Constr.sat, evalTerms]; omega
      · simp only [Constr.sat, evalTerms]; omega

/-- Shape of a successfully built constraint set. -/
theorem addConstraints_ok (players : List Player) (cfg : Config)
    (cs : List Constr) (forced : List Nat)
    (h : addConstraints players cfg = Except.ok (cs, forced)) :
    cs = initialCountConstr players
        :: (budgetConstraints players cfg.budget (daysList cfg.start_gameday cfg.end_gameday)
            ++ transferConstraints players cfg.transfers cfg.start_gameday
                (daysList cfg.start_gameday cfg.end_gameday)
            ++ dailyConstraints players (daysList cfg.start_gameday cfg.end_gameday)
            ++ teamConstraints players (daysList cfg.start_gameday cfg.end_gameday)) ∧
      mustIncludeIndices players cfg.initial_squad = Except.ok forced := by
  unfold addConstraints at h
  cases hm : mustIncludeIndices players cfg.initial_squad with
  | error e => rw [hm] at h; simp [Except.map] at h
  | ok l =>
    rw [hm] at h
    simp only [Except.map, Except.ok.injEq, Prod.mk.injEq] at h
    exact ⟨h.1.symm, by rw [h.2]⟩

/-- A satisfying assignment of a built model satisfies every transfer
constraint. -/
theorem satisfies_transfer (players : List Player) (cfg : Config)
    (cs : List Constr) (forced : List Nat) (A : Var → Bool)
    (hok : addConstraints players cfg = Except.ok (cs, forced))
    (hsat : Satisfies A cs forced) :
    ∀ c ∈ transferConstraints players cfg.transfers cfg.start_gameday
        (daysList cfg.start_gameday cfg.end_gameday), c.sat A := by
  obtain ⟨hcs, -⟩ := addConstraints_ok players cfg cs forced hok
  intro c hc
  exact hsat.1 c (by rw [hcs]; simp [hc])

/-- **C2.** The constraint set emitted by `add_transfer_constraints` holds of
an assignment exactly when, for every player `i` and every day `d` of the
configured window, `transfer_in[i,d] ≥ squad_day[i,d] − squad_day[i,d−1]`
(with `initial_squad[i]` in place of the previous day on the first day of the
window) and the symmetric inequality for `transfer_out` hold, and the sum of
all `transfer_in` variables over the whole window and likewise the sum of all
`transfer_out` variables are bounded by the configured transfer limit. -/
theorem transfer_constraint_set_characterization (players : List Player)
    (transfers : Int) (s e : Nat) (A : Var → Bool) :
    (∀ c ∈ transferConstraints players transfers s (daysList s e), c.sat A) ↔
      transferSpec players transfers s (daysList s e) A :=
  transfer_sat_iff players transfers s (daysList s e) A

/-- With a zero transfer limit, every satisfying assignment keeps all
transfer variables at 0. -/
theorem zero_transfers_no_moves (players : List Player) (cfg : Config)
    (cs : List Constr) (forced : List Nat) (A : Var → Bool)
    (hok : addConstraints players cfg = Except.ok (cs, forced))
    (hsat : Satisfies A cs forced) (h0 : cfg.transfers = 0) :
    ∀ i < players.length, ∀ d ∈ daysList cfg.start_gameday cfg.end_gameday,
      A (Var.tIn i d) = false ∧ A (Var.tOut i d) = false := by
  have htr := (transfer_sat_iff players cfg.transfers cfg.start_gameday
      (daysList cfg.start_gameday cfg.end_gameday) A).mp
    (satisfies_transfer players cfg cs forced A hok hsat)
  obtain ⟨hin, hout, -⟩ := htr
  rw [h0] at hin hout
  have hin0 : tInTotal players (daysList cfg.start_gameday cfg.end_gameday) A = 0 := by
    omega
  have hout0 : tOutTotal players (daysList cfg.start_gameday cfg.end_gameday) A = 0 := by
    omega
  unfold tInTotal at hin0
  unfold tOutTotal at hout0
  rw [List.length_eq_zero, List.filter_eq_nil_iff] at hin0 hout0
  intro i hi d hd
  have hmem : (i, d) ∈ allPD players (daysList cfg.start_gameday cfg.end_gameday) :=
    (mem_allPD _ _ i d).mpr ⟨hi, hd⟩
  constructor
  · simpa using hin0 (i, d) hmem
  · simpa using hout0 (i, d) hmem

/-- **C3.** If the configured transfer limit is 0, every assignment
satisfying the generated constraint set keeps the squad identical to the
initial squad on every day of the window, and all transfer variables are 0. -/
theorem zero_transfer_limit_squad_persists (players : List Player) (cfg : Config)
    (cs : List Constr) (forced : List Nat) (A : Var → Bool)
    (hok : addConstraints players cfg = Except.ok (cs, forced))
    (hsat : Satisfies A cs forced) (h0 : cfg.transfers = 0) :
    (∀ i < players.length, ∀ d ∈ daysList cfg.start_gameday cfg.end_gameday,
        A (Var.squadDay i d) = A (Var.initialSquad i)) ∧
    ∀ i < players.length, ∀ d ∈ daysList cfg.start_gameday cfg.end_gameday,
      A (Var.tIn i d) = false ∧ A (Var.tOut i d) = false := by
  have hzero := zero_transfers_no_moves players cfg cs forced A hok hsat h0
  have htr := (transfer_sat_iff players cfg.transfers cfg.start_gameday
      (daysList cfg.start_gameday cfg.end_gameday) A).mp
    (satisfies_transfer players cfg cs forced A hok hsat)
  obtain ⟨-, -, hpair⟩ := htr
  refine ⟨?_, hzero⟩
  -- each day's squad indicator equals the previous one, hence the initial one
  have hstep : ∀ i < players.length,
      ∀ d ∈ daysList cfg.start_gameday cfg.end_gameday,
        bval A (Var.squadDay i d) = prevSquad A cfg.start_gameday i d := by
    intro i hi d hd
    obtain ⟨h1, h2⟩ := hpair i hi d hd
    obtain ⟨htin, htout⟩ := hzero i hi d hd
    unfold bval at h1 h2 ⊢
    rw [htin] at h1
    rw [htout] at h2
    simp only [Bool.false_eq_true, if_false] at h1 h2
    omega
  intro i hi d hd
  obtain ⟨hsd, hde⟩ := (mem_daysList _ _ _).mp hd
  clear hd
  induction d, hsd using Nat.le_induction with
  | base =>
    have hd : cfg.start_gameday ∈ daysList cfg.start_gameday cfg.end_gameday :=
      (mem_daysList _ _ _).mpr ⟨le_rfl, hde⟩
    have h := hstep i hi cfg.start_gameday hd
    unfold prevSquad at h
    rw [if_pos rfl] at h
    exact (bval_eq_iff A _ _).mp h
  | succ n hn ih =>
    have hd : n + 1 ∈ daysList cfg.start_gameday cfg.end_gameday :=
      (mem_daysList _ _ _).mpr ⟨by omega, hde⟩
    have h := hstep i hi (n + 1) hd
    unfold prevSquad at h
    rw [if_neg (by omega)] at h
    have h' : A (Var.squadDay i (n + 1)) = A (Var.squadDay i n) := by
      simpa using (bval_eq_iff A _ _).mp h
    rw [h']
    exact ih (by omega)

/-- A satisfying assignment of a built model satisfies every daily
constraint. -/
theorem satisfies_daily (players : List Player) (cfg : Config)
    (cs : List Constr) (forced : List Nat) (A : Var → Bool)
    (hok : addConstraints players cfg = Except.ok (cs, forced))
    (hsat : Satisfies A cs forced) :
    ∀ d ∈ daysList cfg.start_gameday cfg.end_gameday,
      ∀ c ∈ dailyBlock players d, c.sat A := by
  obtain ⟨hcs, -⟩ := addConstraints_ok players cfg cs forced hok
  intro d hd c hc
  have hdc : c ∈ dailyConstraints players (daysList cfg.start_gameday cfg.end_gameday) :=
    List.mem_flatMap.mpr ⟨d, hd, hc⟩
  exact hsat.1 c (by rw [hcs]; simp [hdc])

/-- The per-day squad position quotas hold in any satisfying assignment. -/
theorem daily_squad_quota (players : List Player) (cfg : Config)
    (cs : List Constr) (forced : List Nat) (A : Var → Bool)
    (hok : addConstraints players cfg = Except.ok (cs, forced))
    (hsat : Satisfies A cs forced) :
    ∀ d ∈ daysList cfg.start_gameday cfg.end_gameday,
      squadTypeSize players A 1 d = 5 ∧ squadTypeSize players A 2 d = 5 := by
  have hblock := satisfies_daily players cfg cs forced A hok hsat
  intro d hd
  constructor
  · have h1 := hblock d hd
      ⟨(typeIdx players 1).map (fun i => (1, Var.squadDay i d)), Rel.eq, PLAYER_TYPE_COUNT⟩
      (by simp [dailyBlock])
    simp only [Constr.sat, PLAYER_TYPE_COUNT] at h1
    rw [evalTerms_map_one] at h1
    unfold squadTypeSize
    exact_mod_cast h1
  · have h1 := hblock d hd
      ⟨(typeIdx players 2).map (fun i => (1, Var.squadDay i d)), Rel.eq, PLAYER_TYPE_COUNT⟩
      (by simp [dailyBlock])
    simp only [Constr.sat, PLAYER_TYPE_COUNT] at h1
    rw [evalTerms_map_one] at h1
    unfold squadTypeSize
    exact_mod_cast h1

/-- **C6.** In every assignment satisfying the generated constraint set, the
initial squad has exactly 10 members, and on every day of the window the
lineup has exactly 5 members and the day's squad has exactly 5 players of
element type 1 and exactly 5 players of element type 2. -/
theorem squad_and_lineup_quotas (players : List Player) (cfg : Config)
    (cs : List Constr) (forced : List Nat) (A : Var → Bool)
    (hok : addConstraints players cfg = Except.ok (cs, forced))
    (hsat : Satisfies A cs forced) :
    initialSquadSize players A = 10 ∧
    ∀ d ∈ daysList cfg.start_gameday cfg.end_gameday,
      lineupSize players A d = 5 ∧
      squadTypeSize players A 1 d = 5 ∧
      squadTypeSize players A 2 d = 5 := by
  obtain ⟨hcs, -⟩ := addConstraints_ok players cfg cs forced hok
  have hblock := satisfies_daily players cfg cs forced A hok hsat
  constructor
  · have h0 : (initialCountConstr players).sat A := hsat.1 _ (by rw [hcs]; simp)
    simp only [initialCountConstr, Constr.sat, INITIAL_PLAYERS_COUNT] at h0
    rw [evalTerms_map_one] at h0
    unfold initialSquadSize
    exact_mod_cast h0
  · intro d hd
    refine ⟨?_, (daily_squad_quota players cfg cs forced A hok hsat d hd).1,
      (daily_squad_quota players cfg cs forced A hok hsat d hd).2⟩
    have h1 := hblock d hd
      ⟨(idx players).map (fun i => (1, Var.chosenDay i d)), Rel.eq, TOTAL_PLAYERS_PER_DAY⟩
      (by simp [dailyBlock])
    simp only [Constr.sat, TOTAL_PLAYERS_PER_DAY] at h1
    rw [evalTerms_map_one] at h1
    unfold lineupSize
    exact_mod_cast h1

/-- **C7.** In every assignment satisfying the generated constraint set, on
every day of the window exactly one player is captain, the captain is in
that day's lineup, and every lineup member is in that day's squad. -/
theorem captain_and_lineup_membership (players : List Player) (cfg : Config)
    (cs : List Constr) (forced : List Nat) (A : Var → Bool)
    (hok : addConstraints players cfg = Except.ok (cs, forced))
    (hsat : Satisfies A cs forced) :
    ∀ d ∈ daysList cfg.start_gameday cfg.end_gameday,
      captainCount players A d = 1 ∧
      (∀ i < players.length,
        A (Var.doubledScore i d) = true → A (Var.chosenDay i d) = true) ∧
      (∀ i < players.length,
        A (Var.chosenDay i d) = true → A (Var.squadDay i d) = true) := by
  have hblock := satisfies_daily players cfg cs forced A hok hsat
  intro d hd
  refine ⟨?_, ?_, ?_⟩
  · have h1 := hblock d hd
      ⟨(idx players).map (fun i => (1, Var.doubledScore i d)), Rel.eq, 1⟩
      (by simp [dailyBlock])
    simp only [Constr.sat] at h1
    rw [evalTerms_map_one] at h1
    unfold captainCount
    exact_mod_cast h1
  · intro i hi
    have hmem : ⟨[(1, Var.doubledScore i d), (-1, Var.chosenDay i d)], Rel.le, 0⟩
        ∈ dailyBlock players d := by
      simp only [dailyBlock, List.mem_append, List.mem_flatMap]
      exact Or.inr ⟨i, by simp [idx, List.mem_range, hi]⟩
    have h1 := hblock d hd _ hmem
    simp only [Constr.sat, evalTerms] at h1
    exact fun h => (bval_le_iff A _ _).mp (by omega) h
  · intro i hi
    have hmem : ⟨[(1, Var.chosenDay i d), (-1, Var.squadDay i d)], Rel.le, 0⟩
        ∈ dailyBlock players d := by
      simp only [dailyBlock, List.mem_append, List.mem_flatMap]
      exact Or.inr ⟨i, by simp [idx, List.mem_range, hi]⟩
    have h1 := hblock d hd _ hmem
    simp only [Constr.sat, evalTerms] at h1
    exact fun h => (bval_le_iff A _ _).mp (by omega) h

/-! ### The objective, read semantically -/

/-- Spec-side fixture test: the schedule table contains a game on day `d`
with `team` as home or away team. -/
def hasFixture (games : List Game) (team : String) (d : Nat) : Bool :=
  games.any (fun g => g.event == d && (g.team_h == team || g.team_a == team))

/-- Spec-side objective coefficient of a (player, day) pair: the player's
points_per_game if the player's team has a fixture that day, else zero. -/
def specCoeff (players : List Player) (games : List Game) (i d : Nat) : Rat :=
  if hasFixture games (teamAt players i) d then ppgAt players i else 0

/-- Spec-side objective value: the sum over all players and days of the
coefficient times `(lineup_day + captain_day)`. -/
def specObjective (players : List Player) (games : List Game) (days : List Nat)
    (A : Var → Bool) : Rat :=
  ((idx players).map (fun i =>
    (days.map (fun d =>
      specCoeff players games i d *
        (bvalQ A (Var.chosenDay i d) + bvalQ A (Var.doubledScore i d)))).sum)).sum

theorem evalObj_append (A : Var → Bool) (l1 l2 : List (Rat × Var)) :
    evalObj A (l1 ++ l2) = evalObj A l1 + evalObj A l2 := by
  induction l1 with
  | nil => simp [evalObj]
  | cons t ts ih => cases t; simp [evalObj, ih]; ring

theorem evalObj_flatMap {α : Type} (A : Var → Bool) (l : List α)
    (f : α → List (Rat × Var)) :
    evalObj A (l.flatMap f) = (l.map (fun a => evalObj A (f a))).sum := by
  induction l with
  | nil => simp [evalObj]
  | cons a l ih => simp [List.flatMap_cons, evalObj_append, ih]

/-- `player_points_for_day` computes exactly the spec-side coefficient. -/
theorem player_points_eq_specCoeff (players : List Player) (games : List Game)
    (i d : Nat) :
    player_points_for_day players games i d = specCoeff players games i d := by
  cases hp : players[i]? with
  | none =>
    simp [player_points_for_day, specCoeff, ppgAt, hp, ite_self]
  | some p =>
    have hteam : teamAt players i = p.team := by simp [teamAt, hp]
    have hppg : ppgAt players i = p.points_per_game := by simp [ppgAt, hp]
    simp only [player_points_for_day, specCoeff, hp, hteam, hppg]
    have hfix : (((games.filter (fun g => g.event == d)).any (fun g => g.team_h == p.team))
        || ((games.filter (fun g => g.event == d)).any (fun g => g.team_a == p.team)))
        = hasFixture games p.team d := by
      unfold hasFixture
      rw [List.any_filter, List.any_filter, Bool.eq_iff_iff]
      simp only [Bool.or_eq_true, List.any_eq_true, Bool.and_eq_true, Bool.or_eq_true]
      constructor
      · rintro (⟨g, hg, he, ht⟩ | ⟨g, hg, he, ht⟩)
        · exact ⟨g, hg, he, Or.inl ht⟩
        · exact ⟨g, hg, he, Or.inr ht⟩
      · rintro ⟨g, hg, he, ht | ht⟩
        · exact Or.inl ⟨g, hg, he, ht⟩
        · exact Or.inr ⟨g, hg, he, ht⟩
    rw [hfix]

/-- **C1.** The objective built by `set_objective_function` assigns every
(player, day) pair the coefficient `points_per_game` when the schedule has a
game that day with the player's team as home or away and zero otherwise, and
its value is the sum over all players and days of that coefficient times
`(lineup_day + captain_day)`: the lineup indicator earns the points once and
the captain indicator earns them a second time. -/
theorem objective_coefficients_and_value (players : List Player) (games : List Game)
    (s e : Nat) (A : Var → Bool) :
    (∀ i d, player_points_for_day players games i d = specCoeff players games i d) ∧
    evalObj A (objectiveTerms players games (daysList s e)) =
      specObjective players games (daysList s e) A := by
  refine ⟨fun i d => player_points_eq_specCoeff players games i d, ?_⟩
  unfold objectiveTerms specObjective
  rw [evalObj_flatMap]
  apply congrArg List.sum
  apply List.map_congr_left
  intro i _
  rw [evalObj_flatMap]
  apply congrArg List.sum
  apply List.map_congr_left
  intro d _
  simp only [evalObj, player_points_eq_specCoeff]
  ring

/-! ### Points adjustment, characterized -/

/-- The net effect of the adjustment pass on one player row: the override
entry whose key equals the row's name, if any, replaces points_per_game. -/
def applyAdj (adj : List (String × Rat)) (p : Player) : Player :=
  match adj.find? (fun e => e.1 == p.name) with
  | some e => { p with points_per_game := e.2 }
  | none => p

theorem applyAdj_name (adj : List (String × Rat)) (p : Player) :
    (applyAdj adj p).name = p.name := by
  unfold applyAdj
  cases adj.find? (fun e => e.1 == p.name) <;> simp

theorem applyAdj_fields (adj : List (String × Rat)) (p : Player) :
    (applyAdj adj p).name = p.name ∧ (applyAdj adj p).now_cost = p.now_cost ∧
    (applyAdj adj p).element_type = p.element_type ∧ (applyAdj adj p).team = p.team := by
  unfold applyAdj
  cases adj.find? (fun e => e.1 == p.name) <;> simp

theorem setPoints_eq_map (df : List Player) (n : String) (pts : Rat) :
    setPoints df n pts =
      df.map (fun p => if p.name = n then { p with points_per_game := pts } else p) := rfl

theorem setPoints_names (df : List Player) (n : String) (pts : Rat) :
    (setPoints df n pts).map Player.name = df.map Player.name := by
  rw [setPoints_eq_map, List.map_map]
  apply List.map_congr_left
  intro p _
  by_cases h : p.name = n <;> simp [h]

/-- The adjustment pass never changes the name column. -/
theorem adjust_names (adj : List (String × Rat)) :
    ∀ df : List Player,
      ((adjustPlayerPoints df adj).1).map Player.name = df.map Player.name := by
  induction adj with
  | nil => intro df; simp [adjustPlayerPoints]
  | cons e rest ih =>
    intro df
    obtain ⟨n, pts⟩ := e
    unfold adjustPlayerPoints
    by_cases h : (df.map Player.name).contains n
    · rw [if_pos h, ih (setPoints df n pts), setPoints_names]
    · rw [if_neg h]
      exact ih df

/-- With distinct override keys (Python dict keys), a key found in a list
determines the result of `find?`. -/
theorem find?_of_nodup (adj : List (String × Rat)) (e : String × Rat)
    (hnd : (adj.map Prod.fst).Nodup) (he : e ∈ adj) (key : String)
    (hk : e.1 = key) : adj.find? (fun x => x.1 == key) = some e := by
  induction adj with
  | nil => cases he
  | cons a rest ih =>
    rw [List.map_cons, List.nodup_cons] at hnd
    rcases List.mem_cons.mp he with rfl | hmem
    · rw [List.find?_cons_of_pos]
      simp [hk]
    · have hne : a.1 ≠ key := by
        intro hkey
        exact hnd.1 (hkey ▸ hk ▸ List.mem_map_of_mem Prod.fst hmem)
      rw [List.find?_cons_of_neg _ (by simp [hne])]
      exact ih hnd.2 hmem

/-- `find?` is unchanged by removing elements the predicate rejects when all
matching elements are kept. -/
theorem find?_filter_of_matching {α : Type} (l : List α) (p q : α → Bool)
    (h : ∀ a ∈ l, p a = true → q a = true) :
    (l.filter q).find? p = l.find? p := by
  induction l with
  | nil => simp
  | cons a rest ih =>
    by_cases hp : p a = true
    · rw [List.filter_cons_of_pos (h a (List.mem_cons_self a rest) hp),
        List.find?_cons_of_pos _ hp, List.find?_cons_of_pos _ hp]
    · have ih' := ih (fun x hx => h x (List.mem_cons_of_mem a hx))
      rw [List.find?_cons_of_neg _ (by simpa using hp)]
      by_cases hq : q a = true
      · rw [List.filter_cons_of_pos hq, List.find?_cons_of_neg _ (by simpa using hp)]
        exact ih'
      · rw [List.filter_cons_of_neg (by simpa using hq)]
        exact ih'

/-- Master lemma: with distinct override keys, the adjustment pass maps
`applyAdj` over the dataframe. -/
theorem adjust_fst (adj : List (String × Rat)) (hnd : (adj.map Prod.fst).Nodup) :
    ∀ df : List Player, (adjustPlayerPoints df adj).1 = df.map (applyAdj adj) := by
  induction adj with
  | nil =>
    intro df
    unfold adjustPlayerPoints
    rw [show applyAdj ([] : List (String × Rat)) = fun p => p from
      funext fun p => by simp [applyAdj], List.map_id']
  | cons e rest ih =>
    intro df
    obtain ⟨n, pts⟩ := e
    rw [List.map_cons, List.nodup_cons] at hnd
    unfold adjustPlayerPoints
    by_cases h : (df.map Player.name).contains n
    · rw [if_pos h, ih hnd.2 (setPoints df n pts), setPoints_eq_map, List.map_map]
      apply List.map_congr_left
      intro p _
      by_cases hpn : p.name = n
      · have hfind : rest.find? (fun x => x.1 == p.name) = none := by
          rw [List.find?_eq_none]
          intro x hx
          simp only [beq_iff_eq]
          intro hx1
          have hmem : x.1 ∈ List.map Prod.fst rest := List.mem_map_of_mem Prod.fst hx
          rw [hx1, hpn] at hmem
          exact hnd.1 hmem
        simp only [Function.comp, if_pos hpn, applyAdj]
        rw [List.find?_cons_of_pos _ (by simp [hpn]), hfind]
      · simp only [Function.comp, if_neg hpn, applyAdj]
        rw [List.find?_cons_of_neg _
          (by simp only [beq_iff_eq]; exact fun hx => hpn hx.symm)]
    · rw [if_neg h, ih hnd.2 df]
      apply List.map_congr_left
      intro p hp
      have hpn : ¬ n = p.name := by
        intro he
        apply h
        rw [List.elem_iff, he]
        exact List.mem_map_of_mem Player.name hp
      unfold applyAdj
      rw [List.find?_cons_of_neg _ (by simp only [beq_iff_eq]; exact hpn)]

/-- Master lemma: the warnings are exactly the override entries whose name is
absent from the dataframe, in order. -/
theorem adjust_snd (adj : List (String × Rat)) :
    ∀ df : List Player,
      (adjustPlayerPoints df adj).2 =
        (adj.filter (fun e => !((df.map Player.name).contains e.1))).map
          (fun e => warnMsg e.1) := by
  induction adj with
  | nil => intro df; simp [adjustPlayerPoints]
  | cons e rest ih =>
    intro df
    obtain ⟨n, pts⟩ := e
    unfold adjustPlayerPoints
    by_cases h : (df.map Player.name).contains n
    · rw [if_pos h,
        List.filter_cons_of_neg (by simp only [Bool.not_eq_true']
                                    intro hc
                                    simpa using h.symm.trans hc),
        ih (setPoints df n pts), setPoints_names]
    · rw [if_neg h,
        List.filter_cons_of_pos (by simp only [Bool.not_eq_true']
                                    exact Bool.eq_false_iff.mpr h)]
      simp [ih df]

/-- **C8.** With distinct override keys (a Python dict), every player whose
name matches an override entry gets the override value as points, every entry
whose name matches no player produces exactly its non-fatal warning line and
leaves the dataframe result as if the entry were absent, and the pass always
returns normally. -/
theorem points_override_behaviour (df : List Player) (adj : List (String × Rat))
    (hnd : (adj.map Prod.fst).Nodup) :
    (∀ e ∈ adj, ∀ q ∈ (adjustPlayerPoints df adj).1,
        q.name = e.1 → q.points_per_game = e.2) ∧
    ((adjustPlayerPoints df adj).2 =
      (adj.filter (fun e => !((df.map Player.name).contains e.1))).map
        (fun e => warnMsg e.1)) ∧
    (adjustPlayerPoints df adj).1 =
      (adjustPlayerPoints df
        (adj.filter (fun e => (df.map Player.name).contains e.1))).1 := by
  refine ⟨?_, adjust_snd adj df, ?_⟩
  · intro e he q hq hname
    rw [adjust_fst adj hnd df] at hq
    obtain ⟨p, hp, rfl⟩ := List.mem_map.mp hq
    have hfind : adj.find? (fun x => x.1 == p.name) = some e :=
      find?_of_nodup adj e hnd he p.name (by rw [← applyAdj_name adj p, hname])
    unfold applyAdj
    rw [hfind]
  · have hnd' : ((adj.filter
        (fun e => (df.map Player.name).contains e.1)).map Prod.fst).Nodup :=
      hnd.sublist (List.Sublist.map Prod.fst (List.filter_sublist adj))
    rw [adjust_fst adj hnd df, adjust_fst _ hnd' df]
    apply List.map_congr_left
    intro p hp
    unfold applyAdj
    rw [find?_filter_of_matching]
    intro x hx
    simp only [beq_iff_eq]
    intro hx1
    rw [hx1, List.elem_iff]
    exact List.mem_map_of_mem Player.name hp

/-- The caller's `players_df` after a run.  `__init__` stores the caller's
DataFrame by reference (`self.players_df = players_df`, no copy) and
`adjust_player_points` writes through `.loc` in place, so after
`setup_problem` the caller's own DataFrame object holds the adjusted table. -/
def callerDfAfterRun (players : List Player) (cfg : Config) : List Player :=
  match cfg.player_points_adjustments with
  | some adj => (adjustPlayerPoints players adj).1
  | none => players

/-- **C9.** With overrides configured, the caller-visible dataframe after the
run has the same players in the same order with name, cost, element type and
team untouched; rows whose name matches no override are wholly unchanged, and
a row matching an override entry has exactly its points_per_game replaced by
the override value. -/
theorem caller_dataframe_mutation (players : List Player) (cfg : Config)
    (adj : List (String × Rat)) (hadj : cfg.player_points_adjustments = some adj)
    (hnd : (adj.map Prod.fst).Nodup) :
    (callerDfAfterRun players cfg).length = players.length ∧
    (∀ (i : Nat) (p : Player), players[i]? = some p →
      ∃ q, (callerDfAfterRun players cfg)[i]? = some q ∧
        q.name = p.name ∧ q.now_cost = p.now_cost ∧
        q.element_type = p.element_type ∧ q.team = p.team) ∧
    (∀ (i : Nat) (p : Player), players[i]? = some p → (∀ e ∈ adj, e.1 ≠ p.name) →
      (callerDfAfterRun players cfg)[i]? = some p) ∧
    (∀ (i : Nat) (p : Player) (e : String × Rat),
      players[i]? = some p → e ∈ adj → e.1 = p.name →
      (callerDfAfterRun players cfg)[i]? =
        some { p with points_per_game := e.2 }) := by
  have hrun : callerDfAfterRun players cfg = players.map (applyAdj adj) := by
    unfold callerDfAfterRun
    rw [hadj]
    exact adjust_fst adj hnd players
  rw [hrun]
  refine ⟨by simp, ?_, ?_, ?_⟩
  · intro i p hp
    refine ⟨applyAdj adj p, ?_, applyAdj_fields adj p⟩
    rw [List.getElem?_map, hp, Option.map_some']
  · intro i p hp hno
    rw [List.getElem?_map, hp, Option.map_some']
    have : applyAdj adj p = p := by
      unfold applyAdj
      rw [List.find?_eq_none.mpr]
      intro x hx
      simp only [beq_iff_eq]
      exact hno x hx
    rw [this]
  · intro i p e hp he hname
    rw [List.getElem?_map, hp, Option.map_some']
    have : applyAdj adj p = { p with points_per_game := e.2 } := by
      unfold applyAdj
      rw [find?_of_nodup adj e hnd he p.name hname]
    rw [this]

/-! ### Pipeline behaviour on configuration errors and solver failures -/

/-- A must-include name absent from the dataframe makes the bound-pinning
lookup raise. -/
theorem mustInclude_missing_error (players : List Player) (names : List String)
    (name : String) (hin : name ∈ names)
    (habs : name ∉ players.map Player.name) :
    mustIncludeIndices players names = Except.error indexErrMsg := by
  induction names with
  | nil => cases hin
  | cons n rest ih =>
    unfold mustIncludeIndices
    rcases List.mem_cons.mp hin with rfl | hmem
    · have hnone : players.findIdx? (fun p => p.name = name) = none := by
        rw [List.findIdx?_eq_none_iff]
        intro p hp
        simp only [decide_eq_false_iff_not]
        intro he
        exact habs (he ▸ List.mem_map_of_mem Player.name hp)
      rw [hnone]
    · cases hf : players.findIdx? (fun p => p.name = n) with
      | none => rfl
      | some i => rw [ih hmem]; rfl

/-- **C4.** If the configured must-include list names a player absent from
the dataset, model construction fails with the lookup error raised while
processing that name, and the run aborts with that error no matter what the
solver would do — no solve is attempted and the failure is distinct from any
solver status. -/
theorem must_include_missing_aborts (players : List Player) (games : List Game)
    (cfg : Config) (name : String)
    (hin : name ∈ cfg.initial_squad)
    (habs : name ∉ players.map Player.name) :
    addConstraints (match cfg.player_points_adjustments with
      | some a => adjustPlayerPoints players a
      | none => (players, [])).1 cfg = Except.error indexErrMsg ∧
    ∀ solver : Problem → SolveResult,
      mainRun players games cfg solver = Except.error indexErrMsg := by
  have hnames : ((match cfg.player_points_adjustments with
      | some a => adjustPlayerPoints players a
      | none => (players, [])).1).map Player.name = players.map Player.name := by
    cases cfg.player_points_adjustments with
    | none => rfl
    | some a => exact adjust_names a players
  have herr : addConstraints (match cfg.player_points_adjustments with
      | some a => adjustPlayerPoints players a
      | none => (players, [])).1 cfg = Except.error indexErrMsg := by
    unfold addConstraints
    rw [mustInclude_missing_error _ cfg.initial_squad name hin (by rw [hnames]; exact habs)]
    rfl
  refine ⟨herr, fun solver => ?_⟩
  unfold mainRun
  simp only [herr]

/-- **C5 (amended).** On any non-optimal solver status, `print_solution`
emits only the failure line — no transfer plan and no objective value — but
`main` still calls `print_initial_squad` unconditionally afterwards, so the
run's output nevertheless ends with the initial-squad report built from the
solver-left variable values. -/
theorem non_optimal_reporting (players : List Player) (games : List Game)
    (cfg : Config) (solver : Problem → SolveResult)
    (df : List Player) (warns : List String) (pr : List Constr × List Nat)
    (hdf : (match cfg.player_points_adjustments with
      | some a => adjustPlayerPoints players a
      | none => (players, [])) = (df, warns))
    (hok : addConstraints df cfg = Except.ok pr)
    (hstat : (solver (mkProblem df games cfg pr)).status ≠ Status.optimal) :
    mainRun players games cfg solver =
      Except.ok (warns ++ (["No optimal solution found."]
        ++ print_initial_squad df (solver (mkProblem df games cfg pr)))) := by
  unfold mainRun
  simp only [hdf, hok]
  unfold print_solution
  rw [if_neg hstat]
  simp

/-! ### Concrete datasets and assignments used as witnesses -/

/-- Ten players: five of element type 1 and five of type 2, unit cost, all
on distinct teams. -/
def exPlayers10 : List Player :=
  [⟨"A1", 1, 1, "T1", 10⟩, ⟨"A2", 1, 1, "T2", 9⟩, ⟨"A3", 1, 1, "T3", 8⟩,
   ⟨"A4", 1, 1, "T4", 7⟩, ⟨"A5", 1, 1, "T5", 6⟩,
   ⟨"B1", 1, 2, "T6", 5⟩, ⟨"B2", 1, 2, "T7", 4⟩, ⟨"B3", 1, 2, "T8", 3⟩,
   ⟨"B4", 1, 2, "T9", 2⟩, ⟨"B5", 1, 2, "T10", 1⟩]

/-- A one-day window with a zero transfer limit. -/
def exCfg0 : Config := ⟨100, 1, 1, 0, [], none⟩

/-- Keep all ten players everywhere; line up three type-1 and two type-2
players; captain the first; no transfers. -/
def exA : Var → Bool
  | Var.initialSquad i => decide (i < 10)
  | Var.squadDay i _ => decide (i < 10)
  | Var.chosenDay i _ => decide (i = 0 ∨ i = 1 ∨ i = 2 ∨ i = 5 ∨ i = 6)
  | Var.doubledScore i _ => decide (i = 0)
  | Var.tIn _ _ => false
  | Var.tOut _ _ => false

/-- The model built from `exPlayers10` and `exCfg0`. -/
def exPr0 : List Constr × List Nat :=
  ((addConstraints exPlayers10 exCfg0).toOption).getD ([], [])

/-- The ten players plus an eleventh of element type 3. -/
def exPlayers11 : List Player := exPlayers10 ++ [⟨"C1", 1, 3, "T11", 0⟩]

/-- A one-day window with a generous transfer limit. -/
def exCfgT : Config := ⟨100, 1, 1, 5, [], none⟩

/-- Like `exA` but with the eleventh player also in the day squad,
transferred in on day 1. -/
def exA11 : Var → Bool
  | Var.initialSquad i => decide (i < 10)
  | Var.squadDay i _ => decide (i < 11)
  | Var.chosenDay i _ => decide (i = 0 ∨ i = 1 ∨ i = 2 ∨ i = 5 ∨ i = 6)
  | Var.doubledScore i _ => decide (i = 0)
  | Var.tIn i _ => decide (i = 10)
  | Var.tOut _ _ => false

/-- The model built from `exPlayers11` and `exCfgT`. -/
def exPr11 : List Constr × List Nat :=
  ((addConstraints exPlayers11 exCfgT).toOption).getD ([], [])

/-- A two-player dataset for the reporting and configuration-error runs. -/
def exPlayers2 : List Player :=
  [⟨"Alice", 10, 1, "AAA", 5⟩, ⟨"Bob", 8, 2, "BBB", 4⟩]

def exGames0 : List Game := []

def exCfg2 : Config := ⟨100, 1, 1, 1, [], none⟩

/-- A must-include list naming a player absent from the dataset. -/
def exCfgBad : Config := ⟨100, 1, 1, 1, ["Ghost"], none⟩

/-- A solver that reports infeasibility while leaving every variable at 1. -/
def badSolver : Problem → SolveResult :=
  fun _ => ⟨Status.infeasible, fun _ => some 1⟩

/-- A solver that reports optimality with every variable at 0. -/
def exSolverOpt : Problem → SolveResult :=
  fun _ => ⟨Status.optimal, fun _ => some 0⟩

/-- The model built from `exPlayers2` and `exCfg2`. -/
def exPr2 : List Constr × List Nat :=
  ((addConstraints exPlayers2 exCfg2).toOption).getD ([], [])

/-- Overrides touching one present and one absent name. -/
def exAdj : List (String × Rat) := [("A1", 99), ("Ghost", 3)]

/-- A configuration carrying `exAdj` as points adjustments. -/
def exCfgAdj : Config := ⟨100, 1, 1, 1, [], some exAdj⟩

/-- Splitting a filtered count along two mutually exclusive, jointly
exhaustive predicates. -/
theorem length_filter_split (l : List Nat) (p q1 q2 : Nat → Bool)
    (h : ∀ a ∈ l, (q1 a = true ∧ q2 a = false) ∨ (q1 a = false ∧ q2 a = true)) :
    (l.filter p).length =
      ((l.filter q1).filter p).length + ((l.filter q2).filter p).length := by
  induction l with
  | nil => simp
  | cons a l ih =>
    have ih' := ih (fun x hx => h x (List.mem_cons_of_mem a hx))
    rcases h a (List.mem_cons_self a l) with ⟨h1, h2⟩ | ⟨h1, h2⟩ <;>
      by_cases hp : p a = true <;>
      simp [List.filter_cons, h1, h2, hp, ih'] <;> omega

/-- **C10.** No generated constraint bounds a day's squad size directly: the
model of `exPlayers11` — ten type-1/type-2 players plus one player of element
type 3 — admits a satisfying assignment whose day-1 squad has 11 members,
with the type-3 player in the squad; and whenever every player in the dataset
has element type 1 or 2, the two position-quota constraints force every day's
squad to exactly 10 members. -/
theorem squad_size_not_directly_bounded :
    (addConstraints exPlayers11 exCfgT = Except.ok (exPr11.1, exPr11.2) ∧
     Satisfies exA11 exPr11.1 exPr11.2 ∧
     typeAt exPlayers11 10 = 3 ∧
     exA11 (Var.squadDay 10 1) = true ∧
     squadSize exPlayers11 exA11 1 = 11) ∧
    ∀ (players : List Player) (cfg : Config) (cs : List Constr)
      (forced : List Nat) (A : Var → Bool),
      addConstraints players cfg = Except.ok (cs, forced) →
      Satisfies A cs forced →
      (∀ p ∈ players, p.element_type = 1 ∨ p.element_type = 2) →
      ∀ d ∈ daysList cfg.start_gameday cfg.end_gameday,
        squadSize players A d = 10 := by
  constructor
  · exact ⟨rfl, by decide, rfl, rfl, by decide⟩
  · intro players cfg cs forced A hok hsat htypes d hd
    obtain ⟨hq1, hq2⟩ := daily_squad_quota players cfg cs forced A hok hsat d hd
    have hsplit := length_filter_split (idx players)
      (fun i => A (Var.squadDay i d))
      (fun i => decide (typeAt players i = 1))
      (fun i => decide (typeAt players i = 2)) ?_
    · unfold squadSize
      unfold squadTypeSize typeIdx at hq1 hq2
      rw [hsplit, hq1, hq2]
    · intro a ha
      have hlen : a < players.length := by simpa [idx, List.mem_range] using ha
      have hget : players[a]? = some players[a] := List.getElem?_eq_getElem hlen
      have hmem : players[a] ∈ players := List.getElem_mem hlen
      have hty : typeAt players a = (players[a]).element_type := by
        simp [typeAt, hget]
      rcases htypes _ hmem with h1 | h2
      · exact Or.inl (by constructor <;> simp [hty, h1])
      · exact Or.inr (by constructor <;> simp [hty, h2])

/-! ### Witnesses: the hypothesis-bearing theorems applied at concrete data -/

/-- Witness for C3 at the ten-player model with transfer limit 0. -/
theorem zero_transfer_limit_squad_persists_witness :
    exA (Var.squadDay 3 1) = exA (Var.initialSquad 3) ∧ exA (Var.tIn 3 1) = false :=
  ⟨(zero_transfer_limit_squad_persists exPlayers10 exCfg0 exPr0.1 exPr0.2 exA
      rfl (by decide) rfl).1 3 (by decide) 1 (by decide),
   ((zero_transfer_limit_squad_persists exPlayers10 exCfg0 exPr0.1 exPr0.2 exA
      rfl (by decide) rfl).2 3 (by decide) 1 (by decide)).1⟩

/-- Witness for C6 at the ten-player model. -/
theorem squad_and_lineup_quotas_witness :
    initialSquadSize exPlayers10 exA = 10 ∧ lineupSize exPlayers10 exA 1 = 5 :=
  ⟨(squad_and_lineup_quotas exPlayers10 exCfg0 exPr0.1 exPr0.2 exA rfl (by decide)).1,
   ((squad_and_lineup_quotas exPlayers10 exCfg0 exPr0.1 exPr0.2 exA rfl
      (by decide)).2 1 (by decide)).1⟩

/-- Witness for C7 at the ten-player model. -/
theorem captain_and_lineup_membership_witness :
    captainCount exPlayers10 exA 1 = 1 :=
  ((captain_and_lineup_membership exPlayers10 exCfg0 exPr0.1 exPr0.2 exA rfl
      (by decide)) 1 (by decide)).1

/-- Witness for C4: the run with the bad must-include list aborts with the
lookup error, for a solver that would have reported optimality. -/
theorem must_include_missing_aborts_witness :
    mainRun exPlayers2 exGames0 exCfgBad exSolverOpt = Except.error indexErrMsg :=
  (must_include_missing_aborts exPlayers2 exGames0 exCfgBad "Ghost"
      (by decide) (by decide)).2 exSolverOpt

/-- Counterexample for C5 as stated: on an infeasible solve the run output
still contains the initial-squad report. -/
theorem non_optimal_still_prints_initial_squad :
    mainRun exPlayers2 exGames0 exCfg2 badSolver =
      Except.ok ["No optimal solution found.", "Initial Squad:",
        "  - Alice", "  - Bob"] := rfl

/-- Witness for the amended C5 at the two-player run. -/
theorem non_optimal_reporting_witness :
    mainRun exPlayers2 exGames0 exCfg2 badSolver =
      Except.ok ([] ++ (["No optimal solution found."]
        ++ print_initial_squad exPlayers2
            (badSolver (mkProblem exPlayers2 exGames0 exCfg2 exPr2)))) :=
  non_optimal_reporting exPlayers2 exGames0 exCfg2 badSolver exPlayers2 [] exPr2
    rfl rfl (by decide)

/-- Witness for C8: the absent override name yields exactly its warning. -/
theorem points_override_behaviour_witness :
    (adjustPlayerPoints exPlayers10 exAdj).2 = [warnMsg "Ghost"] :=
  ((points_override_behaviour exPlayers10 exAdj (by decide)).2.1).trans (by rfl)

/-- Witness for C9: the matched row in the caller's dataframe carries the
override points afterwards. -/
theorem caller_dataframe_mutation_witness :
    (callerDfAfterRun exPlayers10 exCfgAdj)[0]? = some ⟨"A1", 1, 1, "T1", 99⟩ :=
  (caller_dataframe_mutation exPlayers10 exCfgAdj exAdj rfl (by decide)).2.2.2 0
    ⟨"A1", 1, 1, "T1", 10⟩ ("A1", 99) rfl (by decide) rfl

/-- Witness for C10's universal part at the all-type-1-or-2 dataset. -/
theorem squad_size_not_directly_bounded_witness :
    squadSize exPlayers10 exA 1 = 10 :=
  squad_size_not_directly_bounded.2 exPlayers10 exCfg0 exPr0.1 exPr0.2 exA
    rfl (by decide) (by decide) 1 (by decide)

end NBAFantasy
